import Mathlib

/-!
A shallow embedding of the expression-construction and binding core of
`supersonic/expression/core/string_expressions.cc`: the string-expression
node hierarchy (Concat, the regexp family, and the generic forwarding
nodes produced by `CreateExpressionForExistingBoundFactory`), its textual
representation, and the two-phase bind protocol with its ownership
discipline.  Collaborators that live outside the given source file (the
unary/binary/list binding bases, the bound-evaluator factories, the
expression-traits format descriptions and the template substitution) are
modelled from the specification and marked as such.
-/

namespace Supersonic

/-- Scalar data types of the engine (the `DataType` enum of
`supersonic.pb`). -/
inductive DataType
  | STRING
  | INT32
  | INT64
  | UINT64
  | DOUBLE
  | BOOL
  | DATETIME
  deriving DecidableEq, Repr

/-- Modelled from the spec: the type-name lookup used for diagnostics,
`GetTypeInfo(t).name()` (the type registry is outside the given source). -/
def typeName : DataType → String
  | .STRING => "STRING"
  | .INT32 => "INT32"
  | .INT64 => "INT64"
  | .UINT64 => "UINT64"
  | .DOUBLE => "DOUBLE"
  | .BOOL => "BOOL"
  | .DATETIME => "DATETIME"

/-- Error kinds of the binder (`ReturnCode` values used by this file). -/
inductive ErrorCode
  | ERROR_ATTRIBUTE_TYPE_MISMATCH
  | ERROR_GENERAL
  deriving DecidableEq, Repr

/-- An exception: an error kind plus a formatted message
(`supersonic/base/exception`). -/
structure Exc where
  code : ErrorCode
  message : String
  deriving DecidableEq, Repr

/-- The operator tag selecting the regexp-match flavor
(`OperatorId` of `operators.pb`). -/
inductive OperatorId
  | OPERATOR_REGEXP_PARTIAL
  | OPERATOR_REGEXP_FULL
  deriving DecidableEq, Repr

/-- The unary bound-evaluator factories named by this file. -/
inductive Factory1
  | boundLength
  | boundLtrim
  | boundRtrim
  | boundToLower
  | boundToString
  | boundToUpper
  | boundTrim
  deriving DecidableEq, Repr

/-- The binary bound-evaluator factories named by this file. -/
inductive Factory2
  | boundContains
  | boundContainsCI
  | boundStringOffset
  | boundTrailingSubstring
  deriving DecidableEq, Repr

/-- The ternary bound-evaluator factories named by this file. -/
inductive Factory3
  | boundStringReplace
  | boundSubstring
  deriving DecidableEq, Repr

mutual
/-- The unbound expression nodes built by this file.  `terminal` and
`failing` stand for arbitrary already-constructed child expressions (a
leaf that binds to a column of a given type, and a leaf whose bind
fails), since children are opaque `Expression*` arguments here.
`forward1/2/3` are the generic forwarding nodes produced by
`CreateExpressionForExistingBoundFactory`, parameterized by the target
factory and the display-format template string. -/
inductive Expr
  | terminal (t : DataType) (label : String)
  | failing (e : Exc)
  | concat (args : ExprList)
  | regexp (op : OperatorId) (child : Expr) (pat : String)
  | regexpExtract (child : Expr) (pat : String)
  | regexpReplace (haystack : Expr) (pat : String) (substitute : Expr)
  | forward1 (f : Factory1) (tmpl : String) (a : Expr)
  | forward2 (f : Factory2) (tmpl : String) (a b : Expr)
  | forward3 (f : Factory3) (tmpl : String) (a b c : Expr)

/-- An `ExpressionList`: an ordered sequence of owned child expressions. -/
inductive ExprList
  | nil
  | cons (head : Expr) (tail : ExprList)
end

/-- Modelled from the spec: positional template substitution for the
display-format strings (the `$0`, `$1`, … placeholders of
`basic_expressions`, which is outside the given source).  A `$` followed
by a digit is replaced by the argument at that position. -/
def substChars : List Char → List String → List Char
  | [], _ => []
  | c :: rest, args =>
    if c = '$' then
      match rest with
      | [] => [c]
      | d :: rest2 =>
        if d.isDigit then
          (args.getD (d.toNat - 48) "").data ++ substChars rest2 args
        else
          c :: d :: substChars rest2 args
    else
      c :: substChars rest args

/-- Template substitution lifted to `String`. -/
def substituteArgs (tmpl : String) (args : List String) : String :=
  ⟨substChars tmpl.data args⟩

/-- Modelled from the spec: `UnaryExpressionTraits<op>::FormatDescription`
for the two regexp-match flavors (expression traits are outside the given
source); it is a function of the child description only. -/
def regexpFormatDescription (op : OperatorId) (child : String) : String :=
  match op with
  | .OPERATOR_REGEXP_PARTIAL => "REGEXP_PARTIAL_MATCH(" ++ child ++ ")"
  | .OPERATOR_REGEXP_FULL => "REGEXP_FULL_MATCH(" ++ child ++ ")"

/-- Modelled from the spec:
`BinaryExpressionTraits<OPERATOR_REGEXP_REPLACE>::FormatDescription`, the
canonical REGEXP_REPLACE form over the two child descriptions. -/
def regexpReplaceFormatDescription (l r : String) : String :=
  "REGEXP_REPLACE(" ++ l ++ ", " ++ r ++ ")"

mutual
/-- `Expression::ToString(bool verbose)` for the nodes of this file:
`ConcatExpression::ToString`, `RegexpExpression::ToString`,
`RegexpExtractExpression::ToString`, `RegexpReplaceExpression::ToString`,
and (modelled from the spec) the generic forwarding node's rendering via
its display-format template. -/
def exprToString : Expr → Bool → String
  | .terminal _ label, _ => label
  | .failing _, _ => "FAILING"
  | .concat args, v => "CONCAT(" ++ listToString args v ++ ")"
  | .regexp op c _, v => regexpFormatDescription op (exprToString c v)
  | .regexpExtract c _, v => "REGEXP_EXTRACT(" ++ exprToString c v ++ ")"
  | .regexpReplace l _ r, v =>
    regexpReplaceFormatDescription (exprToString l v) (exprToString r v)
  | .forward1 _ tmpl a, v => substituteArgs tmpl [exprToString a v]
  | .forward2 _ tmpl a b, v =>
    substituteArgs tmpl [exprToString a v, exprToString b v]
  | .forward3 _ tmpl a b c, v =>
    substituteArgs tmpl [exprToString a v, exprToString b v, exprToString c v]

/-- Modelled from the spec: `ExpressionList::ToString`, the comma-joined
descriptions of the elements. -/
def listToString : ExprList → Bool → String
  | .nil, _ => ""
  | .cons h .nil, v => exprToString h v
  | .cons h (.cons h2 t), v =>
    exprToString h v ++ ", " ++ listToString (.cons h2 t) v
end

/-- A bound expression: its resolved type, the id of its own resource,
and the list of resource ids it transitively owns (its own id first, then
the resources of its bound children). -/
structure BoundExpr where
  id : Nat
  type : DataType
  owned : List Nat
  deriving DecidableEq, Repr

/-- A record of one call to an external bound-evaluator factory: the
factory's name, the ids of the bound children handed over, the auxiliary
pattern (for the pattern-bearing nodes), and the allocator and
row-capacity arguments. -/
structure FCall where
  factory : String
  argIds : List Nat
  pat : Option String
  alloc : Nat
  capacity : Nat
  deriving DecidableEq, Repr

/-- The resource state threaded through a bind: a fresh-id counter, the
list of currently allocated (not yet destroyed) bound resources, a flag
recording any attempt to destroy a resource that is not allocated (a
double release), and the log of factory calls made so far. -/
structure BindState where
  next : Nat
  alive : List Nat
  doubleFree : Bool
  calls : List FCall
  deriving DecidableEq, Repr

/-- The state a bind starts from. -/
def initState : BindState := ⟨0, [], false, []⟩

/-- Allocate a fresh bound resource. -/
def allocId (s : BindState) : Nat × BindState :=
  (s.next, { s with next := s.next + 1, alive := s.next :: s.alive })

/-- Destroy one bound resource; destroying a resource that is not
allocated records a double release. -/
def releaseId (i : Nat) (s : BindState) : BindState :=
  if i ∈ s.alive then { s with alive := s.alive.erase i }
  else { s with doubleFree := true }

/-- Destroying a `scoped_ptr<BoundExpression>` destroys the bound
expression and every resource it owns. -/
def releaseBound (b : BoundExpr) (s : BindState) : BindState :=
  b.owned.foldl (fun st i => releaseId i st) s

/-- The resources owned by a list of bound expressions, later elements
first (the order in which a failing bind destroys them). -/
def ownedOfRev (l : List BoundExpr) : List Nat :=
  l.foldl (fun acc b => b.owned ++ acc) []

/-- Modelled from the spec: the shared shape of every external
bound-evaluator factory (`string_bound_expressions`, outside the given
source).  The factory is called with the bound children, the auxiliary
pattern when there is one, the allocator and the row capacity; the call
is logged; the factory takes ownership of the children: on its own
failure (`verdict = some e`, an opaque collaborator error) it destroys
them and returns that error unchanged, on success the produced bound
expression owns them. -/
def factoryCall (nm : String) (verdict : Option Exc) (rt : DataType)
    (argsB : List BoundExpr) (pat : Option String) (al cap : Nat)
    (s : BindState) : (Except Exc BoundExpr) × BindState :=
  let s1 : BindState :=
    { s with calls := s.calls ++ [⟨nm, argsB.map (fun b => b.id), pat, al, cap⟩] }
  match verdict with
  | none =>
    let (rid, s2) := allocId s1
    (.ok ⟨rid, rt, rid :: ownedOfRev argsB⟩, s2)
  | some e =>
    (.error e, (ownedOfRev argsB).foldl (fun st i => releaseId i st) s1)

/-- Modelled from the spec: the verdict of a factory that validates its
argument types itself — acceptance, or its own type-mismatch error. -/
def typeCheckVerdict (nm : String) (ok : Bool) : Option Exc :=
  if ok then none
  else some ⟨.ERROR_ATTRIBUTE_TYPE_MISMATCH, "Invalid argument types to " ++ nm⟩

/-- Modelled from the spec: the verdicts of the external collaborators
this file cannot see.  Whether `BoundGeneralRegexp`, `BoundRegexpExtract`
and `BoundRegexpReplace` accept their auxiliary pattern (they may fail,
e.g. on invalid pattern syntax), and whether `BoundConcat` accepts the
element types of its list (the spec's open question), is each
collaborator's own contract: an environment supplies the verdicts —
`none` for acceptance, `some e` for the collaborator's opaque error. -/
structure FactoryEnv where
  generalRegexp : OperatorId → String → Option Exc
  regexpExtract : String → Option Exc
  regexpReplace : String → Option Exc
  concatVerdict : List DataType → Option Exc

/-- One concrete collaborator environment (every factory accepts), used
only to exercise theorems on concrete inputs. -/
def alwaysOkEnv : FactoryEnv :=
  ⟨fun _ _ => none, fun _ => none, fun _ => none, fun _ => none⟩

/-- Modelled from the spec: the argument types each named unary factory
itself accepts (its own validation), and its result type. -/
def factory1Spec : Factory1 → (DataType → Bool) × DataType
  | .boundLength => (fun t => t = .STRING, .INT32)
  | .boundLtrim => (fun t => t = .STRING, .STRING)
  | .boundRtrim => (fun t => t = .STRING, .STRING)
  | .boundToLower => (fun t => t = .STRING, .STRING)
  | .boundToString => (fun _ => true, .STRING)
  | .boundToUpper => (fun t => t = .STRING, .STRING)
  | .boundTrim => (fun t => t = .STRING, .STRING)

/-- Modelled from the spec: the per-factory name string used in the call
log. -/
def factory1Name : Factory1 → String
  | .boundLength => "BoundLength"
  | .boundLtrim => "BoundLtrim"
  | .boundRtrim => "BoundRtrim"
  | .boundToLower => "BoundToLower"
  | .boundToString => "BoundToString"
  | .boundToUpper => "BoundToUpper"
  | .boundTrim => "BoundTrim"

/-- Modelled from the spec: argument validation and result type of each
named binary factory. -/
def factory2Spec : Factory2 → (DataType → DataType → Bool) × DataType
  | .boundContains => (fun a b => decide (a = .STRING ∧ b = .STRING), .BOOL)
  | .boundContainsCI => (fun a b => decide (a = .STRING ∧ b = .STRING), .BOOL)
  | .boundStringOffset => (fun a b => decide (a = .STRING ∧ b = .STRING), .INT32)
  | .boundTrailingSubstring =>
    (fun a b => decide (a = .STRING ∧ b = .INT64), .STRING)

/-- Modelled from the spec: the name string of each binary factory. -/
def factory2Name : Factory2 → String
  | .boundContains => "BoundContains"
  | .boundContainsCI => "BoundContainsCI"
  | .boundStringOffset => "BoundStringOffset"
  | .boundTrailingSubstring => "BoundTrailingSubstring"

/-- Modelled from the spec: argument validation and result type of each
named ternary factory. -/
def factory3Spec : Factory3 → (DataType → DataType → DataType → Bool) × DataType
  | .boundStringReplace =>
    (fun a b c => decide (a = .STRING ∧ b = .STRING ∧ c = .STRING), .STRING)
  | .boundSubstring =>
    (fun a b c => decide (a = .STRING ∧ b = .INT64 ∧ c = .INT64), .STRING)

/-- Modelled from the spec: the name string of each ternary factory. -/
def factory3Name : Factory3 → String
  | .boundStringReplace => "BoundStringReplace"
  | .boundSubstring => "BoundSubstring"

/-- Modelled from the spec: the logged name of `BoundGeneralRegexp<op>`
per operator tag. -/
def regexpFactoryName : OperatorId → String
  | .OPERATOR_REGEXP_PARTIAL => "BoundGeneralRegexp<REGEXP_PARTIAL>"
  | .OPERATOR_REGEXP_FULL => "BoundGeneralRegexp<REGEXP_FULL>"

/-- Modelled from the spec: `BoundGeneralRegexp<op>` — takes the bound
child, the pattern, the allocator and the capacity; result type BOOL
when it accepts; whether it accepts the pattern (it may reject, e.g.
invalid pattern syntax) is the environment's verdict. -/
def boundGeneralRegexpF (env : FactoryEnv) (op : OperatorId)
    (child : BoundExpr) (pat : String) (al cap : Nat) (s : BindState) :
    (Except Exc BoundExpr) × BindState :=
  factoryCall (regexpFactoryName op) (env.generalRegexp op pat) .BOOL
    [child] (some pat) al cap s

/-- Modelled from the spec: `BoundRegexpExtract` — result type STRING
when it accepts; acceptance of the pattern is the environment's
verdict. -/
def boundRegexpExtractF (env : FactoryEnv) (child : BoundExpr)
    (pat : String) (al cap : Nat) (s : BindState) :
    (Except Exc BoundExpr) × BindState :=
  factoryCall "BoundRegexpExtract" (env.regexpExtract pat) .STRING
    [child] (some pat) al cap s

/-- Modelled from the spec: `BoundRegexpReplace(left, pattern, right,
allocator, capacity)` — result type STRING when it accepts; acceptance
of the pattern is the environment's verdict. -/
def boundRegexpReplaceF (env : FactoryEnv) (l : BoundExpr) (pat : String)
    (r : BoundExpr) (al cap : Nat) (s : BindState) :
    (Except Exc BoundExpr) × BindState :=
  factoryCall "BoundRegexpReplace" (env.regexpReplace pat) .STRING
    [l, r] (some pat) al cap s

/-- Modelled from the spec: `BoundConcat(args, allocator, capacity)`.
Whether it restricts the element types is the spec's open question — the
verdict over the list's types is the environment's, and its result type
is STRING when it accepts. -/
def boundConcatF (env : FactoryEnv) (args : List BoundExpr) (al cap : Nat)
    (s : BindState) : (Except Exc BoundExpr) × BindState :=
  factoryCall "BoundConcat" (env.concatVerdict (args.map (fun b => b.type)))
    .STRING args none al cap s

mutual
/-- `DoBind` for the nodes of this file, against an opaque schema id, an
allocator id and a row capacity, threading the resource state.  The
unary/binary recursion skeleton (bind the children in declared order,
short-circuit on the first failure, destroy an already-bound left child
when its sibling fails, then hand the bound children to the node's hook)
is modelled from the spec, since `basic_expressions` is outside the given
source; the hooks `RegexpExpression::CreateBoundUnaryExpression`,
`RegexpExtractExpression::CreateBoundUnaryExpression`,
`RegexpReplaceExpression::CreateBoundBinaryExpression` and
`ConcatExpression::DoBind` follow the given source line by line (a
`THROW` with the `scoped_ptr` members in scope destroys the children
held by the `scoped_ptr`s, in reverse declaration order). -/
def bindExpr : Expr → FactoryEnv → Nat → Nat → Nat → BindState →
    (Except Exc BoundExpr) × BindState
  | .terminal t _, _, _, _, _, s =>
    let (i, s1) := allocId s
    (.ok ⟨i, t, [i]⟩, s1)
  | .failing e, _, _, _, _, s => (.error e, s)
  | .concat args, env, sch, al, cap, s =>
    match bindExprList args env sch al cap s with
    | (.error e, s1) => (.error e, s1)
    | (.ok bl, s1) => boundConcatF env bl al cap s1
  | .regexp op c pat, env, sch, al, cap, s =>
    match bindExpr c env sch al cap s with
    | (.error e, s1) => (.error e, s1)
    | (.ok b, s1) =>
      if b.type ≠ .STRING then
        (.error ⟨.ERROR_ATTRIBUTE_TYPE_MISMATCH,
           "Invalid argument type (" ++ typeName b.type ++ ") to " ++
             exprToString (.regexp op c pat) true ++ ", STRING expected"⟩,
         releaseBound b s1)
      else boundGeneralRegexpF env op b pat al cap s1
  | .regexpExtract c pat, env, sch, al, cap, s =>
    match bindExpr c env sch al cap s with
    | (.error e, s1) => (.error e, s1)
    | (.ok b, s1) =>
      if b.type ≠ .STRING then
        (.error ⟨.ERROR_ATTRIBUTE_TYPE_MISMATCH,
           "Invalid argument type (" ++ typeName b.type ++ ") to " ++
             exprToString (.regexpExtract c pat) true ++ ", STRING expected"⟩,
         releaseBound b s1)
      else boundRegexpExtractF env b pat al cap s1
  | .regexpReplace l pat r, env, sch, al, cap, s =>
    match bindExpr l env sch al cap s with
    | (.error e, s1) => (.error e, s1)
    | (.ok lb, s1) =>
      match bindExpr r env sch al cap s1 with
      | (.error e, s2) => (.error e, releaseBound lb s2)
      | (.ok rb, s2) =>
        if lb.type ≠ .STRING then
          (.error ⟨.ERROR_ATTRIBUTE_TYPE_MISMATCH,
             "Invalid argument type (" ++ typeName lb.type ++
               ") as first argument to " ++
               exprToString (.regexpReplace l pat r) true ++
               ", STRING expected"⟩,
           releaseBound lb (releaseBound rb s2))
        else if rb.type ≠ .STRING then
          (.error ⟨.ERROR_ATTRIBUTE_TYPE_MISMATCH,
             "Invalid argument type (" ++ typeName rb.type ++
               ") as last argument to " ++
               exprToString (.regexpReplace l pat r) true ++
               ", STRING expected"⟩,
           releaseBound lb (releaseBound rb s2))
        else boundRegexpReplaceF env lb pat rb al cap s2
  | .forward1 f _ a, env, sch, al, cap, s =>
    match bindExpr a env sch al cap s with
    | (.error e, s1) => (.error e, s1)
    | (.ok ab, s1) =>
      factoryCall (factory1Name f)
        (typeCheckVerdict (factory1Name f) ((factory1Spec f).1 ab.type))
        (factory1Spec f).2 [ab] none al cap s1
  | .forward2 f _ a b, env, sch, al, cap, s =>
    match bindExpr a env sch al cap s with
    | (.error e, s1) => (.error e, s1)
    | (.ok ab, s1) =>
      match bindExpr b env sch al cap s1 with
      | (.error e, s2) => (.error e, releaseBound ab s2)
      | (.ok bb, s2) =>
        factoryCall (factory2Name f)
          (typeCheckVerdict (factory2Name f)
            ((factory2Spec f).1 ab.type bb.type))
          (factory2Spec f).2 [ab, bb] none al cap s2
  | .forward3 f _ a b c, env, sch, al, cap, s =>
    match bindExpr a env sch al cap s with
    | (.error e, s1) => (.error e, s1)
    | (.ok ab, s1) =>
      match bindExpr b env sch al cap s1 with
      | (.error e, s2) => (.error e, releaseBound ab s2)
      | (.ok bb, s2) =>
        match bindExpr c env sch al cap s2 with
        | (.error e, s3) => (.error e, releaseBound ab (releaseBound bb s3))
        | (.ok cb, s3) =>
          factoryCall (factory3Name f)
            (typeCheckVerdict (factory3Name f)
              ((factory3Spec f).1 ab.type bb.type cb.type))
            (factory3Spec f).2 [ab, bb, cb] none al cap s3

/-- Modelled from the spec: `ExpressionList::DoBind` — bind every element
first-to-last, aborting on the first failure and destroying the
already-bound earlier elements. -/
def bindExprList : ExprList → FactoryEnv → Nat → Nat → Nat → BindState →
    (Except Exc (List BoundExpr)) × BindState
  | .nil, _, _, _, _, s => (.ok [], s)
  | .cons h t, env, sch, al, cap, s =>
    match bindExpr h env sch al cap s with
    | (.error e, s1) => (.error e, s1)
    | (.ok hb, s1) =>
      match bindExprList t env sch al cap s1 with
      | (.error e, s2) => (.error e, releaseBound hb s2)
      | (.ok tb, s2) => (.ok (hb :: tb), s2)
end

/-- `Concat(args)` (line 201). -/
def Concat (args : ExprList) : Expr := .concat args

/-- `Length(str)` (line 205). -/
def Length (str : Expr) : Expr := .forward1 .boundLength "LENGTH($0)" str

/-- `Ltrim(str)` (line 210). -/
def Ltrim (str : Expr) : Expr := .forward1 .boundLtrim "LTRIM($0)" str

/-- `RegexpPartialMatch(str, pattern)` (line 214). -/
def RegexpPartialMatch (str : Expr) (pat : String) : Expr :=
  .regexp .OPERATOR_REGEXP_PARTIAL str pat

/-- `RegexpFullMatch(str, pattern)` (line 219). -/
def RegexpFullMatch (str : Expr) (pat : String) : Expr :=
  .regexp .OPERATOR_REGEXP_FULL str pat

/-- `RegexpExtract(str, pattern)` (line 224). -/
def RegexpExtract (str : Expr) (pat : String) : Expr :=
  .regexpExtract str pat

/-- `RegexpReplace(haystack, needle, substitute)` (line 229). -/
def RegexpReplace (haystack : Expr) (needle : String) (substitute : Expr) :
    Expr :=
  .regexpReplace haystack needle substitute

/-- `Rtrim(str)` (line 235). -/
def Rtrim (str : Expr) : Expr := .forward1 .boundRtrim "RTRIM($0)" str

/-- `StringContains(haystack, needle)` (line 239). -/
def StringContains (haystack needle : Expr) : Expr :=
  .forward2 .boundContains "CONTAINS($0, $1)" haystack needle

/-- `StringContainsCI(haystack, needle)` (line 245). -/
def StringContainsCI (haystack needle : Expr) : Expr :=
  .forward2 .boundContainsCI "CONTAINS_CI($0, $1)" haystack needle

/-- `StringOffset(haystack, needle)` (line 251). -/
def StringOffset (haystack needle : Expr) : Expr :=
  .forward2 .boundStringOffset "STRING_OFFSET($0, $1)" haystack needle

/-- `StringReplace(haystack, needle, substitute)` (line 257). -/
def StringReplace (haystack needle substitute : Expr) : Expr :=
  .forward3 .boundStringReplace "STRING_REPLACE($0, $1, $2)"
    haystack needle substitute

/-- `Substring(str, pos, length)` (line 265). -/
def Substring (str pos length : Expr) : Expr :=
  .forward3 .boundSubstring "SUBSTRING($0, $1, $2)" str pos length

/-- `ToLower(str)` (line 272). -/
def ToLower (str : Expr) : Expr := .forward1 .boundToLower "TO_LOWER($0)" str

/-- `ToString(expr)` (line 277). -/
def ToStringExpr (expr : Expr) : Expr :=
  .forward1 .boundToString "TO_STRING($0)" expr

/-- `ToUpper(str)` (line 282). -/
def ToUpper (str : Expr) : Expr := .forward1 .boundToUpper "TO_UPPER($0)" str

/-- `TrailingSubstring(str, pos)` (line 287). -/
def TrailingSubstring (str pos : Expr) : Expr :=
  .forward2 .boundTrailingSubstring "SUBSTRING($0, $1)" str pos

/-- `Trim(str)` (line 293). -/
def Trim (str : Expr) : Expr := .forward1 .boundTrim "TRIM($0)" str

/-- `sub` occurs contiguously inside `hay`. -/
def containsStr (hay sub : String) : Prop := sub.data <:+: hay.data

/-- Concatenation of expression lists (used to speak about the elements
after a given one). -/
def eappend : ExprList → ExprList → ExprList
  | .nil, ys => ys
  | .cons h t, ys => .cons h (eappend t ys)

end Supersonic

namespace Supersonic

theorem containsStr_refl (s : String) : containsStr s s :=
  ⟨[], [], by simp⟩

theorem containsStr_appendL (a b sub : String) (h : containsStr b sub) :
    containsStr (a ++ b) sub := by
  obtain ⟨u, v, huv⟩ := h
  exact ⟨a.data ++ u, v, by simp [String.data_append, ← huv]⟩

theorem containsStr_appendR (a b sub : String) (h : containsStr a sub) :
    containsStr (a ++ b) sub := by
  obtain ⟨u, v, huv⟩ := h
  exact ⟨u, v ++ b.data, by simp [String.data_append, ← huv]⟩

theorem releaseRun (l : List Nat) : ∀ (s : BindState) (rest : List Nat),
    s.alive = l ++ rest →
    l.foldl (fun st i => releaseId i st) s = { s with alive := rest } := by
  induction l with
  | nil =>
    intro s rest h
    simp only [List.nil_append] at h
    simp [List.foldl, ← h]
  | cons i t ih =>
    intro s rest h
    simp only [List.foldl]
    have hm : i ∈ s.alive := by
      rw [h]; exact List.mem_cons_self _ _
    have hrel : releaseId i s = { s with alive := t ++ rest } := by
      simp [releaseId, hm, h]
    rw [hrel]
    exact ih _ _ rfl

theorem releaseBound_eq (b : BoundExpr) (s : BindState) (rest : List Nat)
    (h : s.alive = b.owned ++ rest) :
    releaseBound b s = { s with alive := rest } :=
  releaseRun b.owned s rest h

theorem foldl_owned (l : List BoundExpr) : ∀ a : List Nat,
    l.foldl (fun acc b => b.owned ++ acc) a = ownedOfRev l ++ a := by
  induction l with
  | nil => intro a; simp [ownedOfRev]
  | cons b t ih =>
    intro a
    simp only [List.foldl, ownedOfRev]
    rw [ih, ih]
    simp

theorem ownedOfRev_cons (b : BoundExpr) (t : List BoundExpr) :
    ownedOfRev (b :: t) = ownedOfRev t ++ b.owned := by
  simp only [ownedOfRev, List.foldl_cons]
  rw [foldl_owned]
  simp [ownedOfRev]

theorem factoryCall_inv (nm : String) (verdict : Option Exc) (rt : DataType)
    (argsB : List BoundExpr) (pat : Option String) (al cap : Nat)
    (s : BindState) (rest : List Nat) (h : s.alive = ownedOfRev argsB ++ rest) :
    (∀ er s', factoryCall nm verdict rt argsB pat al cap s = (.error er, s') →
        s'.alive = rest ∧ s'.doubleFree = s.doubleFree) ∧
    (∀ b s', factoryCall nm verdict rt argsB pat al cap s = (.ok b, s') →
        s'.alive = b.owned ++ rest ∧ s'.doubleFree = s.doubleFree) := by
  cases verdict with
  | none =>
    constructor
    · intro er s' hres
      simp [factoryCall, allocId] at hres
    · intro b s' hres
      simp only [factoryCall, allocId] at hres
      simp only [Prod.mk.injEq, Except.ok.injEq] at hres
      obtain ⟨hb, hs⟩ := hres
      subst hb
      subst hs
      simp [h]
  | some e0 =>
    constructor
    · intro er s' hres
      simp only [factoryCall] at hres
      rw [releaseRun (ownedOfRev argsB) _ rest (by simpa using h)] at hres
      simp only [Prod.mk.injEq] at hres
      obtain ⟨_, hs⟩ := hres
      subst hs
      simp
    · intro b s' hres
      simp [factoryCall] at hres

theorem releaseId_calls (i : Nat) (s : BindState) :
    (releaseId i s).calls = s.calls := by
  unfold releaseId
  split <;> rfl

theorem foldl_releaseId_calls (l : List Nat) : ∀ s : BindState,
    (l.foldl (fun st i => releaseId i st) s).calls = s.calls := by
  induction l with
  | nil => intro s; rfl
  | cons i t ih =>
    intro s
    simp only [List.foldl]
    rw [ih, releaseId_calls]

theorem factoryCall_calls (nm : String) (verdict : Option Exc)
    (rt : DataType) (argsB : List BoundExpr) (pat : Option String)
    (al cap : Nat) (s : BindState) :
    (factoryCall nm verdict rt argsB pat al cap s).2.calls
      = s.calls ++ [⟨nm, argsB.map (fun b => b.id), pat, al, cap⟩] := by
  unfold factoryCall
  cases verdict with
  | none => simp [allocId]
  | some e0 => simp [foldl_releaseId_calls]

mutual
theorem bind_inv : ∀ (e : Expr) (env : FactoryEnv) (sch al cap : Nat) (s : BindState),
    (∀ er s', bindExpr e env sch al cap s = (.error er, s') →
        s'.alive = s.alive ∧ s'.doubleFree = s.doubleFree) ∧
    (∀ b s', bindExpr e env sch al cap s = (.ok b, s') →
        s'.alive = b.owned ++ s.alive ∧ s'.doubleFree = s.doubleFree)
  | .terminal t lbl, env, sch, al, cap, s => by
    constructor
    · intro er s' hres
      simp [bindExpr, allocId] at hres
    · intro b s' hres
      simp only [bindExpr, allocId, Prod.mk.injEq, Except.ok.injEq] at hres
      obtain ⟨hb, hs⟩ := hres
      subst hb
      subst hs
      simp
  | .failing e0, env, sch, al, cap, s => by
    constructor
    · intro er s' hres
      simp only [bindExpr, Prod.mk.injEq, Except.error.injEq] at hres
      obtain ⟨_, hs⟩ := hres
      subst hs
      exact ⟨rfl, rfl⟩
    · intro b s' hres
      simp [bindExpr] at hres
  | .concat args, env, sch, al, cap, s => by
    obtain ⟨ihErr, ihOk⟩ := bindList_inv args env sch al cap s
    constructor
    · intro er s' hres
      simp only [bindExpr] at hres
      split at hres
      · rename_i e1 s1 heq
        simp only [Prod.mk.injEq, Except.error.injEq] at hres
        obtain ⟨he, hs⟩ := hres
        subst hs
        exact ihErr e1 s1 heq
      · rename_i bl s1 heq
        simp only [boundConcatF] at hres
        have hal := ihOk bl s1 heq
        have hfc := factoryCall_inv "BoundConcat"
          (env.concatVerdict (bl.map (fun b => b.type))) .STRING bl none al cap
          s1 s.alive hal.1
        have hout := hfc.1 er s' hres
        exact ⟨hout.1, by rw [hout.2, hal.2]⟩
    · intro b s' hres
      simp only [bindExpr] at hres
      split at hres
      · rename_i e1 s1 heq
        simp at hres
      · rename_i bl s1 heq
        simp only [boundConcatF] at hres
        have hal := ihOk bl s1 heq
        have hfc := factoryCall_inv "BoundConcat"
          (env.concatVerdict (bl.map (fun b => b.type))) .STRING bl none al cap
          s1 s.alive hal.1
        have hout := hfc.2 b s' hres
        exact ⟨hout.1, by rw [hout.2, hal.2]⟩
  | .regexp op c pat, env, sch, al, cap, s => by
    obtain ⟨ihErr, ihOk⟩ := bind_inv c env sch al cap s
    constructor
    · intro er s' hres
      simp only [bindExpr] at hres
      split at hres
      · rename_i e1 s1 heq
        simp only [Prod.mk.injEq, Except.error.injEq] at hres
        obtain ⟨he, hs⟩ := hres
        subst hs
        exact ihErr e1 s1 heq
      · rename_i cb s1 heq
        have hal := ihOk cb s1 heq
        split at hres
        · simp only [Prod.mk.injEq, Except.error.injEq] at hres
          obtain ⟨he, hs⟩ := hres
          subst hs
          rw [releaseBound_eq cb s1 s.alive hal.1]
          exact ⟨rfl, hal.2⟩
        · simp only [boundGeneralRegexpF] at hres
          have hfc := factoryCall_inv (regexpFactoryName op)
            (env.generalRegexp op pat) .BOOL [cb]
            (some pat) al cap s1 s.alive (by simpa [ownedOfRev] using hal.1)
          have hout := hfc.1 er s' hres
          exact ⟨hout.1, by rw [hout.2, hal.2]⟩
    · intro b s' hres
      simp only [bindExpr] at hres
      split at hres
      · simp at hres
      · rename_i cb s1 heq
        have hal := ihOk cb s1 heq
        split at hres
        · simp at hres
        · simp only [boundGeneralRegexpF] at hres
          have hfc := factoryCall_inv (regexpFactoryName op)
            (env.generalRegexp op pat) .BOOL [cb]
            (some pat) al cap s1 s.alive (by simpa [ownedOfRev] using hal.1)
          have hout := hfc.2 b s' hres
          exact ⟨hout.1, by rw [hout.2, hal.2]⟩
  | .regexpExtract c pat, env, sch, al, cap, s => by
    obtain ⟨ihErr, ihOk⟩ := bind_inv c env sch al cap s
    constructor
    · intro er s' hres
      simp only [bindExpr] at hres
      split at hres
      · rename_i e1 s1 heq
        simp only [Prod.mk.injEq, Except.error.injEq] at hres
        obtain ⟨he, hs⟩ := hres
        subst hs
        exact ihErr e1 s1 heq
      · rename_i cb s1 heq
        have hal := ihOk cb s1 heq
        split at hres
        · simp only [Prod.mk.injEq, Except.error.injEq] at hres
          obtain ⟨he, hs⟩ := hres
          subst hs
          rw [releaseBound_eq cb s1 s.alive hal.1]
          exact ⟨rfl, hal.2⟩
        · simp only [boundRegexpExtractF] at hres
          have hfc := factoryCall_inv "BoundRegexpExtract"
            (env.regexpExtract pat) .STRING [cb]
            (some pat) al cap s1 s.alive (by simpa [ownedOfRev] using hal.1)
          have hout := hfc.1 er s' hres
          exact ⟨hout.1, by rw [hout.2, hal.2]⟩
    · intro b s' hres
      simp only [bindExpr] at hres
      split at hres
      · simp at hres
      · rename_i cb s1 heq
        have hal := ihOk cb s1 heq
        split at hres
        · simp at hres
        · simp only [boundRegexpExtractF] at hres
          have hfc := factoryCall_inv "BoundRegexpExtract"
            (env.regexpExtract pat) .STRING [cb]
            (some pat) al cap s1 s.alive (by simpa [ownedOfRev] using hal.1)
          have hout := hfc.2 b s' hres
          exact ⟨hout.1, by rw [hout.2, hal.2]⟩
  | .regexpReplace l pat r, env, sch, al, cap, s => by
    obtain ⟨ihlErr, ihlOk⟩ := bind_inv l env sch al cap s
    constructor
    · intro er s' hres
      simp only [bindExpr] at hres
      split at hres
      · rename_i e1 s1 heql
        simp only [Prod.mk.injEq, Except.error.injEq] at hres
        obtain ⟨he, hs⟩ := hres
        subst hs
        exact ihlErr e1 s1 heql
      · rename_i lb s1 heql
        obtain ⟨ihrErr, ihrOk⟩ := bind_inv r env sch al cap s1
        have hll := ihlOk lb s1 heql
        split at hres
        · rename_i e2 s2 heqr
          simp only [Prod.mk.injEq, Except.error.injEq] at hres
          obtain ⟨he, hs⟩ := hres
          subst hs
          have hrr := ihrErr e2 s2 heqr
          rw [releaseBound_eq lb s2 s.alive (by rw [hrr.1, hll.1])]
          exact ⟨rfl, by rw [hrr.2, hll.2]⟩
        · rename_i rb s2 heqr
          have hrr := ihrOk rb s2 heqr
          have hrel2 : releaseBound rb s2 = { s2 with alive := lb.owned ++ s.alive } :=
            releaseBound_eq rb s2 _ (by rw [hrr.1, hll.1])
          have hrel1 : releaseBound lb (releaseBound rb s2) =
              { s2 with alive := s.alive } := by
            rw [hrel2]
            exact releaseBound_eq lb _ s.alive rfl
          split at hres
          · simp only [Prod.mk.injEq, Except.error.injEq] at hres
            obtain ⟨he, hs⟩ := hres
            subst hs
            rw [hrel1]
            exact ⟨rfl, by rw [hrr.2, hll.2]⟩
          · split at hres
            · simp only [Prod.mk.injEq, Except.error.injEq] at hres
              obtain ⟨he, hs⟩ := hres
              subst hs
              rw [hrel1]
              exact ⟨rfl, by rw [hrr.2, hll.2]⟩
            · simp only [boundRegexpReplaceF] at hres
              have h2 : s2.alive = ownedOfRev [lb, rb] ++ s.alive := by
                rw [hrr.1, hll.1]
                simp [ownedOfRev_cons, ownedOfRev]
              have hfc := factoryCall_inv "BoundRegexpReplace"
                (env.regexpReplace pat) .STRING
                [lb, rb] (some pat) al cap s2 s.alive h2
              have hout := hfc.1 er s' hres
              exact ⟨hout.1, by rw [hout.2, hrr.2, hll.2]⟩
    · intro b s' hres
      simp only [bindExpr] at hres
      split at hres
      · simp at hres
      · rename_i lb s1 heql
        obtain ⟨ihrErr, ihrOk⟩ := bind_inv r env sch al cap s1
        have hll := ihlOk lb s1 heql
        split at hres
        · simp at hres
        · rename_i rb s2 heqr
          have hrr := ihrOk rb s2 heqr
          split at hres
          · simp at hres
          · split at hres
            · simp at hres
            · simp only [boundRegexpReplaceF] at hres
              have h2 : s2.alive = ownedOfRev [lb, rb] ++ s.alive := by
                rw [hrr.1, hll.1]
                simp [ownedOfRev_cons, ownedOfRev]
              have hfc := factoryCall_inv "BoundRegexpReplace"
                (env.regexpReplace pat) .STRING
                [lb, rb] (some pat) al cap s2 s.alive h2
              have hout := hfc.2 b s' hres
              exact ⟨hout.1, by rw [hout.2, hrr.2, hll.2]⟩
  | .forward1 f tmpl a, env, sch, al, cap, s => by
    obtain ⟨ihErr, ihOk⟩ := bind_inv a env sch al cap s
    constructor
    · intro er s' hres
      simp only [bindExpr] at hres
      split at hres
      · rename_i e1 s1 heq
        simp only [Prod.mk.injEq, Except.error.injEq] at hres
        obtain ⟨he, hs⟩ := hres
        subst hs
        exact ihErr e1 s1 heq
      · rename_i ab s1 heq
        have hal := ihOk ab s1 heq
        have hfc := factoryCall_inv (factory1Name f)
          (typeCheckVerdict (factory1Name f) ((factory1Spec f).1 ab.type))
          (factory1Spec f).2 [ab] none al cap s1 s.alive
          (by simpa [ownedOfRev] using hal.1)
        have hout := hfc.1 er s' hres
        exact ⟨hout.1, by rw [hout.2, hal.2]⟩
    · intro b s' hres
      simp only [bindExpr] at hres
      split at hres
      · simp at hres
      · rename_i ab s1 heq
        have hal := ihOk ab s1 heq
        have hfc := factoryCall_inv (factory1Name f)
          (typeCheckVerdict (factory1Name f) ((factory1Spec f).1 ab.type))
          (factory1Spec f).2 [ab] none al cap s1 s.alive
          (by simpa [ownedOfRev] using hal.1)
        have hout := hfc.2 b s' hres
        exact ⟨hout.1, by rw [hout.2, hal.2]⟩
  | .forward2 f tmpl a b0, env, sch, al, cap, s => by
    obtain ⟨ihaErr, ihaOk⟩ := bind_inv a env sch al cap s
    constructor
    · intro er s' hres
      simp only [bindExpr] at hres
      split at hres
      · rename_i e1 s1 heqa
        simp only [Prod.mk.injEq, Except.error.injEq] at hres
        obtain ⟨he, hs⟩ := hres
        subst hs
        exact ihaErr e1 s1 heqa
      · rename_i ab s1 heqa
        obtain ⟨ihbErr, ihbOk⟩ := bind_inv b0 env sch al cap s1
        have haa := ihaOk ab s1 heqa
        split at hres
        · rename_i e2 s2 heqb
          simp only [Prod.mk.injEq, Except.error.injEq] at hres
          obtain ⟨he, hs⟩ := hres
          subst hs
          have hbb := ihbErr e2 s2 heqb
          rw [releaseBound_eq ab s2 s.alive (by rw [hbb.1, haa.1])]
          exact ⟨rfl, by rw [hbb.2, haa.2]⟩
        · rename_i bb s2 heqb
          have hbb := ihbOk bb s2 heqb
          have h2 : s2.alive = ownedOfRev [ab, bb] ++ s.alive := by
            rw [hbb.1, haa.1]
            simp [ownedOfRev_cons, ownedOfRev]
          have hfc := factoryCall_inv (factory2Name f)
            (typeCheckVerdict (factory2Name f)
              ((factory2Spec f).1 ab.type bb.type)) (factory2Spec f).2
            [ab, bb] none al cap s2 s.alive h2
          have hout := hfc.1 er s' hres
          exact ⟨hout.1, by rw [hout.2, hbb.2, haa.2]⟩
    · intro b s' hres
      simp only [bindExpr] at hres
      split at hres
      · simp at hres
      · rename_i ab s1 heqa
        obtain ⟨ihbErr, ihbOk⟩ := bind_inv b0 env sch al cap s1
        have haa := ihaOk ab s1 heqa
        split at hres
        · simp at hres
        · rename_i bb s2 heqb
          have hbb := ihbOk bb s2 heqb
          have h2 : s2.alive = ownedOfRev [ab, bb] ++ s.alive := by
            rw [hbb.1, haa.1]
            simp [ownedOfRev_cons, ownedOfRev]
          have hfc := factoryCall_inv (factory2Name f)
            (typeCheckVerdict (factory2Name f)
              ((factory2Spec f).1 ab.type bb.type)) (factory2Spec f).2
            [ab, bb] none al cap s2 s.alive h2
          have hout := hfc.2 b s' hres
          exact ⟨hout.1, by rw [hout.2, hbb.2, haa.2]⟩
  | .forward3 f tmpl a b0 c0, env, sch, al, cap, s => by
    obtain ⟨ihaErr, ihaOk⟩ := bind_inv a env sch al cap s
    constructor
    · intro er s' hres
      simp only [bindExpr] at hres
      split at hres
      · rename_i e1 s1 heqa
        simp only [Prod.mk.injEq, Except.error.injEq] at hres
        obtain ⟨he, hs⟩ := hres
        subst hs
        exact ihaErr e1 s1 heqa
      · rename_i ab s1 heqa
        obtain ⟨ihbErr, ihbOk⟩ := bind_inv b0 env sch al cap s1
        have haa := ihaOk ab s1 heqa
        split at hres
        · rename_i e2 s2 heqb
          simp only [Prod.mk.injEq, Except.error.injEq] at hres
          obtain ⟨he, hs⟩ := hres
          subst hs
          have hbb := ihbErr e2 s2 heqb
          rw [releaseBound_eq ab s2 s.alive (by rw [hbb.1, haa.1])]
          exact ⟨rfl, by rw [hbb.2, haa.2]⟩
        · rename_i bb s2 heqb
          obtain ⟨ihcErr, ihcOk⟩ := bind_inv c0 env sch al cap s2
          have hbb := ihbOk bb s2 heqb
          split at hres
          · rename_i e3 s3 heqc
            simp only [Prod.mk.injEq, Except.error.injEq] at hres
            obtain ⟨he, hs⟩ := hres
            subst hs
            have hcc := ihcErr e3 s3 heqc
            have hrel2 : releaseBound bb s3 = { s3 with alive := ab.owned ++ s.alive } :=
              releaseBound_eq bb s3 _ (by rw [hcc.1, hbb.1, haa.1])
            have hrel1 : releaseBound ab (releaseBound bb s3) =
                { s3 with alive := s.alive } := by
              rw [hrel2]
              exact releaseBound_eq ab _ s.alive rfl
            rw [hrel1]
            exact ⟨rfl, by rw [hcc.2, hbb.2, haa.2]⟩
          · rename_i cb s3 heqc
            have hcc := ihcOk cb s3 heqc
            have h3 : s3.alive = ownedOfRev [ab, bb, cb] ++ s.alive := by
              rw [hcc.1, hbb.1, haa.1]
              simp [ownedOfRev_cons, ownedOfRev]
            have hfc := factoryCall_inv (factory3Name f)
              (typeCheckVerdict (factory3Name f)
              ((factory3Spec f).1 ab.type bb.type cb.type)) (factory3Spec f).2
              [ab, bb, cb] none al cap s3 s.alive h3
            have hout := hfc.1 er s' hres
            exact ⟨hout.1, by rw [hout.2, hcc.2, hbb.2, haa.2]⟩
    · intro b s' hres
      simp only [bindExpr] at hres
      split at hres
      · simp at hres
      · rename_i ab s1 heqa
        obtain ⟨ihbErr, ihbOk⟩ := bind_inv b0 env sch al cap s1
        have haa := ihaOk ab s1 heqa
        split at hres
        · simp at hres
        · rename_i bb s2 heqb
          obtain ⟨ihcErr, ihcOk⟩ := bind_inv c0 env sch al cap s2
          have hbb := ihbOk bb s2 heqb
          split at hres
          · simp at hres
          · rename_i cb s3 heqc
            have hcc := ihcOk cb s3 heqc
            have h3 : s3.alive = ownedOfRev [ab, bb, cb] ++ s.alive := by
              rw [hcc.1, hbb.1, haa.1]
              simp [ownedOfRev_cons, ownedOfRev]
            have hfc := factoryCall_inv (factory3Name f)
              (typeCheckVerdict (factory3Name f)
              ((factory3Spec f).1 ab.type bb.type cb.type)) (factory3Spec f).2
              [ab, bb, cb] none al cap s3 s.alive h3
            have hout := hfc.2 b s' hres
            exact ⟨hout.1, by rw [hout.2, hcc.2, hbb.2, haa.2]⟩

theorem bindList_inv : ∀ (l : ExprList) (env : FactoryEnv) (sch al cap : Nat) (s : BindState),
    (∀ er s', bindExprList l env sch al cap s = (.error er, s') →
        s'.alive = s.alive ∧ s'.doubleFree = s.doubleFree) ∧
    (∀ bl s', bindExprList l env sch al cap s = (.ok bl, s') →
        s'.alive = ownedOfRev bl ++ s.alive ∧ s'.doubleFree = s.doubleFree)
  | .nil, env, sch, al, cap, s => by
    constructor
    · intro er s' hres
      simp [bindExprList] at hres
    · intro bl s' hres
      simp only [bindExprList, Prod.mk.injEq, Except.ok.injEq] at hres
      obtain ⟨hb, hs⟩ := hres
      subst hb
      subst hs
      simp [ownedOfRev]
  | .cons h t, env, sch, al, cap, s => by
    obtain ⟨ihhErr, ihhOk⟩ := bind_inv h env sch al cap s
    constructor
    · intro er s' hres
      simp only [bindExprList] at hres
      split at hres
      · rename_i e1 s1 heqh
        simp only [Prod.mk.injEq, Except.error.injEq] at hres
        obtain ⟨he, hs⟩ := hres
        subst hs
        exact ihhErr e1 s1 heqh
      · rename_i hb s1 heqh
        obtain ⟨ihtErr, ihtOk⟩ := bindList_inv t env sch al cap s1
        have hhh := ihhOk hb s1 heqh
        split at hres
        · rename_i e2 s2 heqt
          simp only [Prod.mk.injEq, Except.error.injEq] at hres
          obtain ⟨he, hs⟩ := hres
          subst hs
          have htt := ihtErr e2 s2 heqt
          rw [releaseBound_eq hb s2 s.alive (by rw [htt.1, hhh.1])]
          exact ⟨rfl, by rw [htt.2, hhh.2]⟩
        · rename_i tb s2 heqt
          simp at hres
    · intro bl s' hres
      simp only [bindExprList] at hres
      split at hres
      · simp at hres
      · rename_i hb s1 heqh
        obtain ⟨ihtErr, ihtOk⟩ := bindList_inv t env sch al cap s1
        have hhh := ihhOk hb s1 heqh
        split at hres
        · simp at hres
        · rename_i tb s2 heqt
          have htt := ihtOk tb s2 heqt
          simp only [Prod.mk.injEq, Except.ok.injEq] at hres
          obtain ⟨hb2, hs⟩ := hres
          subst hb2
          subst hs
          constructor
          · rw [htt.1, hhh.1, ownedOfRev_cons]
            simp
          · rw [htt.2, hhh.2]
end

theorem substituteArgs_three (a b c : String) :
    substituteArgs "SUBSTRING($0, $1, $2)" [a, b, c] =
      "SUBSTRING(" ++ a ++ ", " ++ b ++ ", " ++ c ++ ")" := by
  refine String.ext ?_
  simp [substituteArgs, substChars, String.data_append, List.getD]

theorem substituteArgs_two (a b : String) :
    substituteArgs "SUBSTRING($0, $1)" [a, b] =
      "SUBSTRING(" ++ a ++ ", " ++ b ++ ")" := by
  refine String.ext ?_
  simp [substituteArgs, substChars, String.data_append, List.getD]

/-- C1: for either regexp-match flavor and for RegexpExtract, binding a
child whose resolved type is not STRING fails with
ERROR_ATTRIBUTE_TYPE_MISMATCH, the bound child is destroyed, and the
message contains the child's actual type name, the expected type name
STRING, and the node's own verbose textual form. -/
theorem regexp_unary_bind_type_mismatch
    (op : OperatorId) (c : Expr) (pat : String) (env : FactoryEnv) (sch al cap : Nat)
    (s s1 : BindState) (b : BoundExpr)
    (hbind : bindExpr c env sch al cap s = (.ok b, s1))
    (hty : b.type ≠ .STRING) :
    (∃ msg, bindExpr (.regexp op c pat) env sch al cap s
        = (.error ⟨.ERROR_ATTRIBUTE_TYPE_MISMATCH, msg⟩, releaseBound b s1)
      ∧ containsStr msg (typeName b.type)
      ∧ containsStr msg "STRING"
      ∧ containsStr msg (exprToString (.regexp op c pat) true))
    ∧ (∃ msg, bindExpr (.regexpExtract c pat) env sch al cap s
        = (.error ⟨.ERROR_ATTRIBUTE_TYPE_MISMATCH, msg⟩, releaseBound b s1)
      ∧ containsStr msg (typeName b.type)
      ∧ containsStr msg "STRING"
      ∧ containsStr msg (exprToString (.regexpExtract c pat) true)) := by
  constructor
  · refine ⟨"Invalid argument type (" ++ typeName b.type ++ ") to " ++
      exprToString (.regexp op c pat) true ++ ", STRING expected",
      ?_, ?_, ?_, ?_⟩
    · simp only [bindExpr, hbind]
      simp [hty]
    · apply containsStr_appendR
      apply containsStr_appendR
      apply containsStr_appendR
      apply containsStr_appendL
      exact containsStr_refl _
    · apply containsStr_appendL
      exact ⟨", ".data, " expected".data, by decide⟩
    · apply containsStr_appendR
      apply containsStr_appendL
      exact containsStr_refl _
  · refine ⟨"Invalid argument type (" ++ typeName b.type ++ ") to " ++
      exprToString (.regexpExtract c pat) true ++ ", STRING expected",
      ?_, ?_, ?_, ?_⟩
    · simp only [bindExpr, hbind]
      simp [hty]
    · apply containsStr_appendR
      apply containsStr_appendR
      apply containsStr_appendR
      apply containsStr_appendL
      exact containsStr_refl _
    · apply containsStr_appendL
      exact ⟨", ".data, " expected".data, by decide⟩
    · apply containsStr_appendR
      apply containsStr_appendL
      exact containsStr_refl _

/-- C1 witness: RegexpPartialMatch over an INT32 child, at a concrete
input. -/
theorem regexp_unary_bind_type_mismatch_witness :
    ∃ msg, bindExpr (.regexp .OPERATOR_REGEXP_PARTIAL
        (.terminal .INT32 "int_col") "a+") alwaysOkEnv 0 0 16 initState
      = (.error ⟨.ERROR_ATTRIBUTE_TYPE_MISMATCH, msg⟩,
         releaseBound ⟨0, .INT32, [0]⟩ ⟨1, [0], false, []⟩)
      ∧ containsStr msg (typeName DataType.INT32)
      ∧ containsStr msg "STRING"
      ∧ containsStr msg (exprToString (.regexp .OPERATOR_REGEXP_PARTIAL
          (.terminal .INT32 "int_col") "a+") true) :=
  (regexp_unary_bind_type_mismatch .OPERATOR_REGEXP_PARTIAL
    (.terminal .INT32 "int_col") "a+" alwaysOkEnv 0 0 16 initState
    ⟨1, [0], false, []⟩ ⟨0, .INT32, [0]⟩ (by rfl) (by decide)).1

/-- C2: RegexpReplace type-checks the bound haystack (first) child before
the bound substitute (last) child: a non-STRING haystack yields the
"first argument" ERROR_ATTRIBUTE_TYPE_MISMATCH message regardless of the
substitute's type; a STRING haystack with a non-STRING substitute yields
the "last argument" message; both messages carry the actual type name,
STRING, and the node's verbose form. -/
theorem regexp_replace_check_order
    (l r : Expr) (pat : String) (env : FactoryEnv) (sch al cap : Nat)
    (s s1 s2 : BindState) (lb rb : BoundExpr)
    (hl : bindExpr l env sch al cap s = (.ok lb, s1))
    (hr : bindExpr r env sch al cap s1 = (.ok rb, s2)) :
    (lb.type ≠ .STRING →
      ∃ msg, bindExpr (.regexpReplace l pat r) env sch al cap s
          = (.error ⟨.ERROR_ATTRIBUTE_TYPE_MISMATCH, msg⟩,
             releaseBound lb (releaseBound rb s2))
        ∧ containsStr msg "first argument"
        ∧ containsStr msg (typeName lb.type)
        ∧ containsStr msg "STRING"
        ∧ containsStr msg (exprToString (.regexpReplace l pat r) true))
    ∧ (lb.type = .STRING → rb.type ≠ .STRING →
      ∃ msg, bindExpr (.regexpReplace l pat r) env sch al cap s
          = (.error ⟨.ERROR_ATTRIBUTE_TYPE_MISMATCH, msg⟩,
             releaseBound lb (releaseBound rb s2))
        ∧ containsStr msg "last argument"
        ∧ containsStr msg (typeName rb.type)
        ∧ containsStr msg "STRING"
        ∧ containsStr msg (exprToString (.regexpReplace l pat r) true)) := by
  constructor
  · intro hlt
    refine ⟨"Invalid argument type (" ++ typeName lb.type ++
      ") as first argument to " ++
      exprToString (.regexpReplace l pat r) true ++ ", STRING expected",
      ?_, ?_, ?_, ?_, ?_⟩
    · simp only [bindExpr, hl, hr]
      simp [hlt]
    · apply containsStr_appendR
      apply containsStr_appendR
      apply containsStr_appendL
      exact ⟨") as ".data, " to ".data, by decide⟩
    · apply containsStr_appendR
      apply containsStr_appendR
      apply containsStr_appendR
      apply containsStr_appendL
      exact containsStr_refl _
    · apply containsStr_appendL
      exact ⟨", ".data, " expected".data, by decide⟩
    · apply containsStr_appendR
      apply containsStr_appendL
      exact containsStr_refl _
  · intro hlt hrt
    refine ⟨"Invalid argument type (" ++ typeName rb.type ++
      ") as last argument to " ++
      exprToString (.regexpReplace l pat r) true ++ ", STRING expected",
      ?_, ?_, ?_, ?_, ?_⟩
    · simp only [bindExpr, hl, hr]
      simp [hlt, hrt]
    · apply containsStr_appendR
      apply containsStr_appendR
      apply containsStr_appendL
      exact ⟨") as ".data, " to ".data, by decide⟩
    · apply containsStr_appendR
      apply containsStr_appendR
      apply containsStr_appendR
      apply containsStr_appendL
      exact containsStr_refl _
    · apply containsStr_appendL
      exact ⟨", ".data, " expected".data, by decide⟩
    · apply containsStr_appendR
      apply containsStr_appendL
      exact containsStr_refl _

/-- C2 witness: RegexpReplace with an INT32 haystack and a DOUBLE
substitute fails on the first argument, at a concrete input. -/
theorem regexp_replace_check_order_witness :
    ∃ msg, bindExpr (.regexpReplace (.terminal .INT32 "i") "a+"
        (.terminal .DOUBLE "d")) alwaysOkEnv 0 0 16 initState
      = (.error ⟨.ERROR_ATTRIBUTE_TYPE_MISMATCH, msg⟩,
         releaseBound ⟨0, .INT32, [0]⟩
           (releaseBound ⟨1, .DOUBLE, [1]⟩ ⟨2, [1, 0], false, []⟩))
      ∧ containsStr msg "first argument"
      ∧ containsStr msg (typeName DataType.INT32)
      ∧ containsStr msg "STRING"
      ∧ containsStr msg (exprToString (.regexpReplace (.terminal .INT32 "i")
          "a+" (.terminal .DOUBLE "d")) true) :=
  (regexp_replace_check_order (.terminal .INT32 "i") (.terminal .DOUBLE "d")
    "a+" alwaysOkEnv 0 0 16 initState ⟨1, [0], false, []⟩ ⟨2, [1, 0], false, []⟩
    ⟨0, .INT32, [0]⟩ ⟨1, .DOUBLE, [1]⟩ (by rfl) (by rfl)).1 (by decide)

/-- C3: when a type-check hook of RegexpExpression, RegexpExtractExpression
or RegexpReplaceExpression rejects, every bound child passed into it is
destroyed before the failure returns (the alive set returns to what it was
before the node's bind, with no double release and no factory call); when
all of the node's checks pass, ownership of the bound children is
forwarded to the external bound-evaluator factory (exactly one call,
carrying the children's ids). -/
theorem hook_ownership_no_leak
    (env : FactoryEnv) (sch al cap : Nat) (op : OperatorId) (c : Expr) (pat : String)
    (s s1 : BindState) (b : BoundExpr)
    (hbind : bindExpr c env sch al cap s = (.ok b, s1))
    (l r : Expr) (pat2 : String) (t t1 t2 : BindState) (lb rb : BoundExpr)
    (hl : bindExpr l env sch al cap t = (.ok lb, t1))
    (hr : bindExpr r env sch al cap t1 = (.ok rb, t2)) :
    (b.type ≠ .STRING →
       ((bindExpr (.regexp op c pat) env sch al cap s).2.alive = s.alive
      ∧ (bindExpr (.regexp op c pat) env sch al cap s).2.doubleFree = s.doubleFree
      ∧ (bindExpr (.regexp op c pat) env sch al cap s).2.calls = s1.calls)
      ∧ ((bindExpr (.regexpExtract c pat) env sch al cap s).2.alive = s.alive
      ∧ (bindExpr (.regexpExtract c pat) env sch al cap s).2.doubleFree = s.doubleFree
      ∧ (bindExpr (.regexpExtract c pat) env sch al cap s).2.calls = s1.calls))
    ∧ ((lb.type ≠ .STRING ∨ rb.type ≠ .STRING) →
        (bindExpr (.regexpReplace l pat2 r) env sch al cap t).2.alive = t.alive
      ∧ (bindExpr (.regexpReplace l pat2 r) env sch al cap t).2.doubleFree = t.doubleFree
      ∧ (bindExpr (.regexpReplace l pat2 r) env sch al cap t).2.calls = t2.calls)
    ∧ (b.type = .STRING →
        (bindExpr (.regexp op c pat) env sch al cap s).2.calls
          = s1.calls ++ [⟨regexpFactoryName op, [b.id], some pat, al, cap⟩]
      ∧ (bindExpr (.regexpExtract c pat) env sch al cap s).2.calls
          = s1.calls ++ [⟨"BoundRegexpExtract", [b.id], some pat, al, cap⟩])
    ∧ (lb.type = .STRING → rb.type = .STRING →
        (bindExpr (.regexpReplace l pat2 r) env sch al cap t).2.calls
          = t2.calls ++ [⟨"BoundRegexpReplace", [lb.id, rb.id], some pat2, al, cap⟩]) := by
  have hcinv := (bind_inv c env sch al cap s).2 b s1 hbind
  have hlinv := (bind_inv l env sch al cap t).2 lb t1 hl
  have hrinv := (bind_inv r env sch al cap t1).2 rb t2 hr
  have hrel2 : releaseBound rb t2 = { t2 with alive := lb.owned ++ t.alive } :=
    releaseBound_eq rb t2 _ (by rw [hrinv.1, hlinv.1])
  have hrel1 : releaseBound lb (releaseBound rb t2) =
      { t2 with alive := t.alive } := by
    rw [hrel2]
    exact releaseBound_eq lb _ t.alive rfl
  refine ⟨?_, ?_, ?_, ?_⟩
  · intro hty
    constructor
    · simp only [bindExpr, hbind]
      simp only [hty, ne_eq, not_false_iff, if_true]
      rw [releaseBound_eq b s1 s.alive hcinv.1]
      exact ⟨rfl, hcinv.2, rfl⟩
    · simp only [bindExpr, hbind]
      simp only [hty, ne_eq, not_false_iff, if_true]
      rw [releaseBound_eq b s1 s.alive hcinv.1]
      exact ⟨rfl, hcinv.2, rfl⟩
  · intro hor
    by_cases hlt : lb.type = .STRING
    · have hrt : rb.type ≠ .STRING := by
        rcases hor with h | h
        · exact absurd hlt h
        · exact h
      simp only [bindExpr, hl, hr]
      simp only [hlt, hrt, ne_eq, not_false_iff, not_true, if_true, if_false]
      rw [hrel1]
      refine ⟨rfl, ?_, rfl⟩
      rw [hrinv.2, hlinv.2]
    · simp only [bindExpr, hl, hr]
      simp only [hlt, ne_eq, not_false_iff, if_true]
      rw [hrel1]
      refine ⟨rfl, ?_, rfl⟩
      rw [hrinv.2, hlinv.2]
  · intro hty
    constructor
    · simp only [bindExpr, hbind]
      rw [if_neg (not_not_intro hty)]
      simp only [boundGeneralRegexpF]
      rw [factoryCall_calls]
      simp
    · simp only [bindExpr, hbind]
      rw [if_neg (not_not_intro hty)]
      simp only [boundRegexpExtractF]
      rw [factoryCall_calls]
      simp
  · intro hlt hrt
    simp only [bindExpr, hl, hr]
    rw [if_neg (not_not_intro hlt), if_neg (not_not_intro hrt)]
    simp only [boundRegexpReplaceF]
    rw [factoryCall_calls]
    simp

/-- C3 witness: a rejected RegexpReplace over a STRING haystack and a
DOUBLE substitute, at a concrete input. -/
theorem hook_ownership_no_leak_witness :
    (bindExpr (.regexpReplace (.terminal .STRING "h") "a+"
        (.terminal .DOUBLE "s")) alwaysOkEnv 0 0 16 initState).2.alive = initState.alive
    ∧ (bindExpr (.regexpReplace (.terminal .STRING "h") "a+"
        (.terminal .DOUBLE "s")) alwaysOkEnv 0 0 16 initState).2.doubleFree
        = initState.doubleFree
    ∧ (bindExpr (.regexpReplace (.terminal .STRING "h") "a+"
        (.terminal .DOUBLE "s")) alwaysOkEnv 0 0 16 initState).2.calls
        = BindState.calls ⟨2, [1, 0], false, []⟩ :=
  (hook_ownership_no_leak alwaysOkEnv 0 0 16 .OPERATOR_REGEXP_PARTIAL
    (.terminal .INT32 "x") "a+" initState ⟨1, [0], false, []⟩
    ⟨0, .INT32, [0]⟩ (by rfl)
    (.terminal .STRING "h") (.terminal .DOUBLE "s") "a+" initState
    ⟨1, [0], false, []⟩ ⟨2, [1, 0], false, []⟩
    ⟨0, .STRING, [0]⟩ ⟨1, .DOUBLE, [1]⟩ (by rfl) (by rfl)).2.1
    (Or.inr (by decide))

theorem bindList_fail_append (env : FactoryEnv) (sch al cap : Nat) :
    ∀ (xs ys : ExprList) (e : Exc) (s s1 : BindState),
      bindExprList xs env sch al cap s = (.error e, s1) →
      bindExprList (eappend xs ys) env sch al cap s = (.error e, s1)
  | .nil, ys, e, s, s1 => by
    intro h
    simp [bindExprList] at h
  | .cons hd tl, ys, e, s, s1 => by
    intro h
    simp only [bindExprList] at h
    simp only [eappend, bindExprList]
    split at h
    · rename_i e1 t1 heq
      exact h
    · rename_i hb t1 heq
      split at h
      · rename_i e2 t2 heq2
        rw [bindList_fail_append env sch al cap tl ys e2 t1 t2 heq2]
        exact h
      · simp at h

/-- C4: binary nodes bind the left child first against the same (schema,
allocator, capacity) triple: a failing left bind short-circuits with the
right child never bound (the whole node's result, state included, is the
left child's failure); a failing right bind destroys the already-bound
left child before propagating, leaving the alive set as before the node's
bind with no double release.  List nodes bind first-to-last with the same
short-circuit: appending further elements after a failing list changes
nothing. -/
theorem bind_order (env : FactoryEnv) (sch al cap : Nat) :
    (∀ (l r : Expr) (pat : String) (f : Factory2) (tmpl : String)
       (e : Exc) (s s1 : BindState),
       bindExpr l env sch al cap s = (.error e, s1) →
         bindExpr (.regexpReplace l pat r) env sch al cap s = (.error e, s1)
       ∧ bindExpr (.forward2 f tmpl l r) env sch al cap s = (.error e, s1))
    ∧ (∀ (l r : Expr) (pat : String) (f : Factory2) (tmpl : String)
         (lb : BoundExpr) (e : Exc) (s s1 s2 : BindState),
       bindExpr l env sch al cap s = (.ok lb, s1) →
       bindExpr r env sch al cap s1 = (.error e, s2) →
         bindExpr (.regexpReplace l pat r) env sch al cap s
           = (.error e, releaseBound lb s2)
       ∧ bindExpr (.forward2 f tmpl l r) env sch al cap s
           = (.error e, releaseBound lb s2)
       ∧ (releaseBound lb s2).alive = s.alive
       ∧ (releaseBound lb s2).doubleFree = s.doubleFree)
    ∧ (∀ (xs ys : ExprList) (e : Exc) (s s1 : BindState),
       bindExprList xs env sch al cap s = (.error e, s1) →
         bindExprList (eappend xs ys) env sch al cap s = (.error e, s1)) := by
  refine ⟨?_, ?_, ?_⟩
  · intro l r pat f tmpl e s s1 h
    constructor
    · simp only [bindExpr, h]
    · simp only [bindExpr, h]
  · intro l r pat f tmpl lb e s s1 s2 hl hr
    have hlinv := (bind_inv l env sch al cap s).2 lb s1 hl
    have hrinv := (bind_inv r env sch al cap s1).1 e s2 hr
    have hrel : releaseBound lb s2 = { s2 with alive := s.alive } :=
      releaseBound_eq lb s2 s.alive (by rw [hrinv.1, hlinv.1])
    refine ⟨?_, ?_, ?_, ?_⟩
    · simp only [bindExpr, hl, hr]
    · simp only [bindExpr, hl, hr]
    · rw [hrel]
    · rw [hrel]
      show s2.doubleFree = s.doubleFree
      rw [hrinv.2, hlinv.2]
  · intro xs ys e s s1 h
    exact bindList_fail_append env sch al cap xs ys e s s1 h

/-- C4 witness: a failing first argument short-circuits a RegexpReplace
and a generic binary node, at a concrete input. -/
theorem bind_order_witness :
    bindExpr (.regexpReplace (.failing ⟨.ERROR_GENERAL, "boom"⟩) "a+"
        (.terminal .STRING "ok")) alwaysOkEnv 0 0 16 initState
      = (.error ⟨.ERROR_GENERAL, "boom"⟩, initState)
    ∧ bindExpr (.forward2 .boundContains "CONTAINS($0, $1)"
        (.failing ⟨.ERROR_GENERAL, "boom"⟩) (.terminal .STRING "ok"))
        alwaysOkEnv 0 0 16 initState
      = (.error ⟨.ERROR_GENERAL, "boom"⟩, initState) :=
  (bind_order alwaysOkEnv 0 0 16).1 (.failing ⟨.ERROR_GENERAL, "boom"⟩)
    (.terminal .STRING "ok") "a+" .boundContains "CONTAINS($0, $1)"
    ⟨.ERROR_GENERAL, "boom"⟩ initState initState (by rfl)

/-- C5: Concat's DoBind binds its whole argument list first; a failing
list bind is propagated as-is (same error value, same state, no
wrapping); a successful list bind is handed directly to BoundConcat with
the allocator and capacity — the factory call is logged with the bound
list's ids for every list and every collaborator verdict, with no
per-argument type check at the node level (no typing hypothesis on the
list is needed; whether BoundConcat itself accepts the element types is
left to the collaborator environment). -/
theorem concat_bind (xs : ExprList) (env : FactoryEnv) (sch al cap : Nat)
    (s : BindState) :
    (∀ e s1, bindExprList xs env sch al cap s = (.error e, s1) →
       bindExpr (.concat xs) env sch al cap s = (.error e, s1))
    ∧ (∀ bl s1, bindExprList xs env sch al cap s = (.ok bl, s1) →
       bindExpr (.concat xs) env sch al cap s = boundConcatF env bl al cap s1
       ∧ (bindExpr (.concat xs) env sch al cap s).2.calls
           = s1.calls ++ [⟨"BoundConcat", bl.map (fun x => x.id),
               none, al, cap⟩]) := by
  constructor
  · intro e s1 h
    simp only [bindExpr, h]
  · intro bl s1 h
    constructor
    · simp only [bindExpr, h]
    · simp only [bindExpr, h, boundConcatF]
      rw [factoryCall_calls]

/-- C5 witness: a two-element list of mixed types (STRING and INT32) is
handed straight to BoundConcat — the call is logged with both element
ids — at a concrete input. -/
theorem concat_bind_witness :
    bindExpr (.concat (.cons (.terminal .STRING "a")
        (.cons (.terminal .INT32 "b") .nil))) alwaysOkEnv 0 0 16 initState
      = boundConcatF alwaysOkEnv [⟨0, .STRING, [0]⟩, ⟨1, .INT32, [1]⟩] 0 16
          ⟨2, [1, 0], false, []⟩
    ∧ (bindExpr (.concat (.cons (.terminal .STRING "a")
        (.cons (.terminal .INT32 "b") .nil))) alwaysOkEnv 0 0 16
        initState).2.calls
      = BindState.calls ⟨2, [1, 0], false, []⟩
          ++ [⟨"BoundConcat",
               List.map (fun x : BoundExpr => x.id)
                 ([⟨0, .STRING, [0]⟩, ⟨1, .INT32, [1]⟩] : List BoundExpr),
               none, 0, 16⟩] :=
  (concat_bind (.cons (.terminal .STRING "a")
      (.cons (.terminal .INT32 "b") .nil)) alwaysOkEnv 0 0 16 initState).2
    [⟨0, .STRING, [0]⟩, ⟨1, .INT32, [1]⟩] ⟨2, [1, 0], false, []⟩ (by rfl)

/-- C6: the pattern handed to a pattern-bearing constructor is stored in
the node and carried unchanged through binding: when the children are
STRING-typed, the external factory is invoked — whatever its own verdict
— with exactly that pattern as an extra argument alongside the bound
children's ids; the pattern is never itself bound as a child (the call's
argument ids are exactly the expression children's). -/
theorem pattern_forwarded_unchanged
    (c l r : Expr) (p : String) (env : FactoryEnv) (sch al cap : Nat)
    (s s1 : BindState) (b : BoundExpr)
    (hbind : bindExpr c env sch al cap s = (.ok b, s1)) (hty : b.type = .STRING)
    (t t1 t2 : BindState) (lb rb : BoundExpr)
    (hl : bindExpr l env sch al cap t = (.ok lb, t1))
    (hr : bindExpr r env sch al cap t1 = (.ok rb, t2))
    (hlt : lb.type = .STRING) (hrt : rb.type = .STRING) :
    (bindExpr (RegexpPartialMatch c p) env sch al cap s).2.calls
      = s1.calls ++ [⟨regexpFactoryName .OPERATOR_REGEXP_PARTIAL,
          [b.id], some p, al, cap⟩]
    ∧ (bindExpr (RegexpFullMatch c p) env sch al cap s).2.calls
      = s1.calls ++ [⟨regexpFactoryName .OPERATOR_REGEXP_FULL,
          [b.id], some p, al, cap⟩]
    ∧ (bindExpr (RegexpExtract c p) env sch al cap s).2.calls
      = s1.calls ++ [⟨"BoundRegexpExtract", [b.id], some p, al, cap⟩]
    ∧ (bindExpr (RegexpReplace l p r) env sch al cap t).2.calls
      = t2.calls ++ [⟨"BoundRegexpReplace", [lb.id, rb.id],
          some p, al, cap⟩] := by
  refine ⟨?_, ?_, ?_, ?_⟩
  · simp only [RegexpPartialMatch, bindExpr, hbind]
    rw [if_neg (not_not_intro hty)]
    simp only [boundGeneralRegexpF]
    rw [factoryCall_calls]
    simp
  · simp only [RegexpFullMatch, bindExpr, hbind]
    rw [if_neg (not_not_intro hty)]
    simp only [boundGeneralRegexpF]
    rw [factoryCall_calls]
    simp
  · simp only [RegexpExtract, bindExpr, hbind]
    rw [if_neg (not_not_intro hty)]
    simp only [boundRegexpExtractF]
    rw [factoryCall_calls]
    simp
  · simp only [RegexpReplace, bindExpr, hl, hr]
    rw [if_neg (not_not_intro hlt), if_neg (not_not_intro hrt)]
    simp only [boundRegexpReplaceF]
    rw [factoryCall_calls]
    simp

/-- C6 witness: a RegexpExtract over a STRING child hands its factory
exactly the construction pattern next to the child's id, at a concrete
input. -/
theorem pattern_forwarded_unchanged_witness :
    (bindExpr (RegexpExtract (.terminal .STRING "s") "a(b)") alwaysOkEnv
        0 0 16 initState).2.calls
      = BindState.calls ⟨1, [0], false, []⟩
          ++ [⟨"BoundRegexpExtract", [0], some "a(b)", 0, 16⟩] :=
  (pattern_forwarded_unchanged (.terminal .STRING "s")
    (.terminal .STRING "h") (.terminal .STRING "r") "a(b)" alwaysOkEnv
    0 0 16 initState ⟨1, [0], false, []⟩ ⟨0, .STRING, [0]⟩
    (by rfl) (by decide)
    initState ⟨1, [0], false, []⟩ ⟨2, [1, 0], false, []⟩
    ⟨0, .STRING, [0]⟩ ⟨1, .STRING, [1]⟩ (by rfl) (by rfl)
    (by decide) (by decide)).2.2.1

/-- C7: the textual representation follows the canonical notation with the
children's representations substituted positionally and the verbosity
flag forwarded to the children: a two-element Concat renders as
CONCAT(A, B); Substring renders through the SUBSTRING template with
three positions; RegexpReplace renders through the canonical
REGEXP_REPLACE binary form over the two child representations. -/
theorem rendering_canonical (A B S P L H R : Expr) (v : Bool) :
    exprToString (Concat (.cons A (.cons B .nil))) v
      = "CONCAT(" ++ exprToString A v ++ ", " ++ exprToString B v ++ ")"
    ∧ exprToString (Substring S P L) v
      = "SUBSTRING(" ++ exprToString S v ++ ", " ++ exprToString P v ++ ", "
          ++ exprToString L v ++ ")"
    ∧ ∀ pat : String, exprToString (RegexpReplace H pat R) v
      = "REGEXP_REPLACE(" ++ exprToString H v ++ ", "
          ++ exprToString R v ++ ")" := by
  refine ⟨?_, ?_, ?_⟩
  · simp only [Concat, exprToString, listToString]
    refine String.ext ?_
    simp [String.data_append]
  · simp only [Substring, exprToString, substituteArgs_three]
  · intro pat
    simp only [RegexpReplace, exprToString, regexpReplaceFormatDescription]

/-- C8: every non-pattern public constructor returns the generic
forwarding node holding only the named external factory and a
display-format template with positional placeholders; such nodes have no
node-level type check — once the children are bound, the node calls the
factory directly (the factory is invoked, and logged, even when it then
rejects the argument types itself). -/
theorem generic_forwarding_nodes
    (str pos length haystack needle substitute expr : Expr) :
    Length str = .forward1 .boundLength "LENGTH($0)" str
    ∧ Ltrim str = .forward1 .boundLtrim "LTRIM($0)" str
    ∧ Rtrim str = .forward1 .boundRtrim "RTRIM($0)" str
    ∧ ToLower str = .forward1 .boundToLower "TO_LOWER($0)" str
    ∧ ToUpper str = .forward1 .boundToUpper "TO_UPPER($0)" str
    ∧ Trim str = .forward1 .boundTrim "TRIM($0)" str
    ∧ ToStringExpr expr = .forward1 .boundToString "TO_STRING($0)" expr
    ∧ StringContains haystack needle
        = .forward2 .boundContains "CONTAINS($0, $1)" haystack needle
    ∧ StringContainsCI haystack needle
        = .forward2 .boundContainsCI "CONTAINS_CI($0, $1)" haystack needle
    ∧ StringOffset haystack needle
        = .forward2 .boundStringOffset "STRING_OFFSET($0, $1)" haystack needle
    ∧ StringReplace haystack needle substitute
        = .forward3 .boundStringReplace "STRING_REPLACE($0, $1, $2)"
            haystack needle substitute
    ∧ Substring str pos length
        = .forward3 .boundSubstring "SUBSTRING($0, $1, $2)" str pos length
    ∧ TrailingSubstring str pos
        = .forward2 .boundTrailingSubstring "SUBSTRING($0, $1)" str pos
    ∧ ∀ (f : Factory1) (tmpl : String) (a : Expr) (env : FactoryEnv) (sch al cap : Nat)
        (s s1 : BindState) (ab : BoundExpr),
        bindExpr a env sch al cap s = (.ok ab, s1) →
        bindExpr (.forward1 f tmpl a) env sch al cap s
          = factoryCall (factory1Name f)
              (typeCheckVerdict (factory1Name f) ((factory1Spec f).1 ab.type))
              (factory1Spec f).2 [ab] none al cap s1
        ∧ (bindExpr (.forward1 f tmpl a) env sch al cap s).2.calls
          = s1.calls ++ [⟨factory1Name f, [ab.id], none, al, cap⟩] := by
  refine ⟨rfl, rfl, rfl, rfl, rfl, rfl, rfl, rfl, rfl, rfl, rfl, rfl, rfl, ?_⟩
  intro f tmpl a env sch al cap s s1 ab hbind
  constructor
  · simp only [bindExpr, hbind]
  · simp only [bindExpr, hbind]
    rw [factoryCall_calls]
    rfl

/-- C8 witness: Length over an INT32 child still reaches BoundLength (the
factory is called, then rejects), at a concrete input. -/
theorem generic_forwarding_nodes_witness :
    bindExpr (.forward1 .boundLength "LENGTH($0)" (.terminal .INT32 "i"))
        alwaysOkEnv 0 0 16 initState
      = factoryCall (factory1Name .boundLength)
          (typeCheckVerdict (factory1Name .boundLength)
            ((factory1Spec .boundLength).1 .INT32))
          (factory1Spec .boundLength).2 [⟨0, .INT32, [0]⟩] none 0 16
          ⟨1, [0], false, []⟩
    ∧ (bindExpr (.forward1 .boundLength "LENGTH($0)" (.terminal .INT32 "i"))
        alwaysOkEnv 0 0 16 initState).2.calls
      = BindState.calls ⟨1, [0], false, []⟩
          ++ [⟨factory1Name .boundLength, [0], none, 0, 16⟩] :=
  (generic_forwarding_nodes (.terminal .INT32 "i") (.terminal .INT32 "i")
    (.terminal .INT32 "i") (.terminal .INT32 "i") (.terminal .INT32 "i")
    (.terminal .INT32 "i") (.terminal .INT32 "i")).2.2.2.2.2.2.2.2.2.2.2.2.2
    .boundLength "LENGTH($0)" (.terminal .INT32 "i") alwaysOkEnv 0 0 16 initState
    ⟨1, [0], false, []⟩ ⟨0, .INT32, [0]⟩ (by rfl)

/-- C9: for every pattern-bearing node and both verbosity flags, the
display depends only on the children's representations, never on the
pattern: changing the pattern changes neither the display nor the
type-mismatch failure a non-STRING child produces (so the textual form
inside a type-mismatch message carries no pattern text). -/
theorem pattern_absent_from_display
    (op : OperatorId) (c l r : Expr) (p p2 : String) (v : Bool) :
    exprToString (.regexp op c p) v = exprToString (.regexp op c p2) v
    ∧ exprToString (.regexpExtract c p) v
        = exprToString (.regexpExtract c p2) v
    ∧ exprToString (.regexpReplace l p r) v
        = exprToString (.regexpReplace l p2 r) v
    ∧ (∀ env sch al cap s s1 b,
        bindExpr c env sch al cap s = (.ok b, s1) → b.type ≠ .STRING →
        bindExpr (.regexp op c p) env sch al cap s
          = bindExpr (.regexp op c p2) env sch al cap s)
    ∧ (∀ env sch al cap s s1 b,
        bindExpr c env sch al cap s = (.ok b, s1) → b.type ≠ .STRING →
        bindExpr (.regexpExtract c p) env sch al cap s
          = bindExpr (.regexpExtract c p2) env sch al cap s)
    ∧ (∀ env sch al cap s s1 s2 lb rb,
        bindExpr l env sch al cap s = (.ok lb, s1) →
        bindExpr r env sch al cap s1 = (.ok rb, s2) →
        (lb.type ≠ .STRING ∨ rb.type ≠ .STRING) →
        bindExpr (.regexpReplace l p r) env sch al cap s
          = bindExpr (.regexpReplace l p2 r) env sch al cap s) := by
  refine ⟨rfl, rfl, rfl, ?_, ?_, ?_⟩
  · intro env sch al cap s s1 b hbind hty
    simp only [bindExpr, hbind]
    rw [if_pos hty, if_pos hty]
    simp only [exprToString]
  · intro env sch al cap s s1 b hbind hty
    simp only [bindExpr, hbind]
    rw [if_pos hty, if_pos hty]
    simp only [exprToString]
  · intro env sch al cap s s1 s2 lb rb hl hr hor
    simp only [bindExpr, hl, hr]
    by_cases hlt : lb.type = .STRING
    · have hrt : rb.type ≠ .STRING := by
        rcases hor with h | h
        · exact absurd hlt h
        · exact h
      rw [if_neg (not_not_intro hlt), if_neg (not_not_intro hlt),
        if_pos hrt, if_pos hrt]
      simp only [exprToString]
    · rw [if_pos hlt, if_pos hlt]
      simp only [exprToString]

/-- C9 witness: the INT32-child mismatch result of RegexpPartialMatch
with pattern "aaa" equals the one with pattern "bbb", at a concrete
input. -/
theorem pattern_absent_from_display_witness :
    bindExpr (.regexp .OPERATOR_REGEXP_PARTIAL
        (.terminal .INT32 "int_col") "aaa") alwaysOkEnv 0 0 16 initState
      = bindExpr (.regexp .OPERATOR_REGEXP_PARTIAL
        (.terminal .INT32 "int_col") "bbb") alwaysOkEnv 0 0 16 initState :=
  (pattern_absent_from_display .OPERATOR_REGEXP_PARTIAL
    (.terminal .INT32 "int_col") (.terminal .INT32 "int_col")
    (.terminal .INT32 "int_col") "aaa" "bbb" true).2.2.2.1
    alwaysOkEnv 0 0 16 initState ⟨1, [0], false, []⟩ ⟨0, .INT32, [0]⟩
    (by rfl) (by decide)

/-- C10: TrailingSubstring displays through the two-position SUBSTRING
template — the same SUBSTRING keyword as the three-argument Substring —
so the two operations differ in rendering only by argument count. -/
theorem trailing_substring_display (A B C0 : Expr) (v : Bool) :
    exprToString (TrailingSubstring A B) v
      = substituteArgs "SUBSTRING($0, $1)" [exprToString A v, exprToString B v]
    ∧ exprToString (TrailingSubstring A B) v
      = "SUBSTRING(" ++ exprToString A v ++ ", " ++ exprToString B v ++ ")"
    ∧ exprToString (Substring A B C0) v
      = "SUBSTRING(" ++ exprToString A v ++ ", " ++ exprToString B v ++ ", "
          ++ exprToString C0 v ++ ")"
    ∧ TrailingSubstring A B
      = .forward2 .boundTrailingSubstring "SUBSTRING($0, $1)" A B := by
  refine ⟨rfl, ?_, ?_, rfl⟩
  · simp only [TrailingSubstring, exprToString, substituteArgs_two]
  · simp only [Substring, exprToString, substituteArgs_three]

end Supersonic
